import Mathlib

/-!
Verification of the key-management service (Go) against its specification.

The definitions below are a shallow embedding of the repository's source:

* `internal/domain`           — `KeyStatus`, `EncryptionKey`, `KeyMetadata`, `Key`,
                                the sentinel errors of `errors.go`;
* `internal/repository/key_repository.go`
                              — the SQL-backed `KeyRepository`, embedded as pure
                                functions over the list of `encryption_keys` rows;
* `internal/usecase/key_service.go`
                              — `KeyService` methods `CreateKey`, `GetCurrentKey`,
                                `GetKeyByGeneration`, `RotateKey`, `ListKeys`,
                                `DisableKey`;
* `internal/handler/key_handler.go`
                              — parameter validation, error → HTTP status mapping,
                                audit-event emission;
* `internal/usecase/migration_service.go` and the `MigrationRepository` of
  `internal/infra/database.go`
                              — migration discovery, filtering and application.

Machine integers (`uint`) are modelled as `Nat`; byte slices as `List Nat`;
`context.Context`, logging and tracing — which carry no data relevant to the
claims — are dropped.  The external KMS and the CSPRNG are parameters:
`encrypt`/`decrypt` are caller-supplied `List Nat → Option (List Nat)`
(`none` models a KMS failure) and the fresh plaintext key, row id and clock
are explicit arguments.
-/

namespace KeyMgmt

/-- `domain.KeyStatus`: the enumeration {`active`, `disabled`}. -/
inductive KeyStatus where
  | active
  | disabled
deriving DecidableEq, Repr

/-- `domain.EncryptionKey` / the `encryption_keys` row
(`EncryptionKeyModel` in `key_repository.go`). -/
structure EncryptionKey where
  id : String
  tenantID : String
  generation : Nat
  encryptedKey : List Nat
  status : KeyStatus
  createdAt : Nat
  updatedAt : Nat
deriving DecidableEq, Repr

/-- `domain.KeyMetadata`: metadata returned by create/rotate/list (no plaintext). -/
structure KeyMetadata where
  tenantID : String
  generation : Nat
  status : KeyStatus
  createdAt : Nat
deriving DecidableEq, Repr

/-- `domain.Key`: a decrypted key as returned by the get paths. -/
structure Key where
  tenantID : String
  generation : Nat
  key : List Nat
deriving DecidableEq, Repr

/-- The Go error values that flow through the service and handler:
the sentinel errors of `domain/errors.go`, the database / KMS failures,
and `wrap e` for `fmt.Errorf("...: %w", e)`. -/
inductive GoError where
  | keyNotFound
  | keyAlreadyExists
  | keyDisabled
  | keyAlreadyDisabled
  | invalidTenantID
  | invalidGeneration
  | migrationFailed
  | invalidMigrationFile
  | dbConflict
  | dbFailure
  | kmsFailure
  | wrap (e : GoError)
deriving DecidableEq, Repr

/-- Go's `errors.Is` over the `%w` wrapping chain: an error matches a target
sentinel when it equals it or wraps an error that does. -/
def errorIs : GoError → GoError → Bool
  | .wrap inner, target => (GoError.wrap inner == target) || errorIs inner target
  | e, target => e == target

/-- The `encryption_keys` table contents: the committed rows, in insertion order. -/
abbrev DB := List EncryptionKey

/-- Schema invariants of the `encryption_keys` table enforced by the database:
`id` is the primary key and `(tenant_id, generation)` is unique
(`uk_tenant_generation`). -/
def WFdb (db : DB) : Prop :=
  db.Pairwise (fun a b =>
    a.id ≠ b.id ∧ (a.tenantID ≠ b.tenantID ∨ a.generation ≠ b.generation))

/-- `KeyRepository.ExistsByTenantID`: `SELECT COUNT(*) WHERE tenant_id = ?`,
reported as `count > 0`. -/
def existsByTenantID (db : DB) (t : String) : Bool :=
  db.any (fun k => k.tenantID == t)

/-- `KeyRepository.FindByTenantIDAndGeneration`:
`WHERE tenant_id = ? AND generation = ?`, `First`; `nil` when no row matches. -/
def findByTenantIDAndGeneration (db : DB) (t : String) (g : Nat) :
    Option EncryptionKey :=
  db.find? (fun k => k.tenantID == t && k.generation == g)

/-- One step of selecting a maximum-generation row from a result set. -/
def pickMax (acc : Option EncryptionKey) (k : EncryptionKey) : Option EncryptionKey :=
  match acc with
  | none => some k
  | some m => if m.generation < k.generation then some k else some m

/-- `KeyRepository.FindLatestActiveByTenantID`:
`WHERE tenant_id = ? AND status = 'active' ORDER BY generation DESC`, `First` —
a maximum-generation row among the active rows of the tenant. -/
def findLatestActiveByTenantID (db : DB) (t : String) : Option EncryptionKey :=
  (db.filter (fun k => k.tenantID == t && k.status == KeyStatus.active)).foldl
    pickMax none

/-- `KeyRepository.GetMaxGeneration`: `SELECT MAX(generation) WHERE tenant_id = ?`,
`0` when the tenant has no row. -/
def getMaxGeneration (db : DB) (t : String) : Nat :=
  (db.filter (fun k => k.tenantID == t)).foldl (fun m k => max m k.generation) 0

/-- Ascending insertion by generation (`ORDER BY generation ASC`). -/
def insertByGeneration (k : EncryptionKey) : List EncryptionKey → List EncryptionKey
  | [] => [k]
  | x :: xs =>
    if k.generation < x.generation then k :: x :: xs else x :: insertByGeneration k xs

/-- `KeyRepository.FindAllByTenantID`:
`WHERE tenant_id = ? ORDER BY generation ASC`. -/
def findAllByTenantID (db : DB) (t : String) : List EncryptionKey :=
  (db.filter (fun k => k.tenantID == t)).foldr insertByGeneration []

/-- `KeyRepository.Create`: `INSERT` of a fully-built row.  The database rejects
a duplicate primary key `id` or a `(tenant_id, generation)` pair violating
`uk_tenant_generation` with a unique-constraint (duplicate-key) error. -/
def repoCreate (db : DB) (k : EncryptionKey) : Except GoError DB :=
  if db.any (fun r => r.id == k.id) then
    .error .dbConflict
  else if db.any (fun r => r.tenantID == k.tenantID && r.generation == k.generation) then
    .error .dbConflict
  else
    .ok (db ++ [k])

/-- `KeyRepository.UpdateStatus`: `UPDATE encryption_keys SET status = ?
WHERE id = ?`; gorm's `autoUpdateTime` also refreshes `updated_at`. -/
def updateStatus (db : DB) (id : String) (st : KeyStatus) (now : Nat) : DB :=
  db.map (fun k =>
    if k.id == id then { k with status := st, updatedAt := now } else k)

/-- `KeyService.CreateKey`, with each repository call evaluated against the
database state current at that call: `dbCheck` is the state seen by
`ExistsByTenantID`, `dbInsert` the state seen by `Create`.  A sequential call
has `dbCheck = dbInsert` (`createKey` below); different states express the
interleaving where a concurrent create commits between the two calls.
`plainKey` is the CSPRNG output, `encrypt` the KMS wrap, `newId`/`now` the
row id and clock assigned at insert.  Errors of inner calls are wrapped as by
`fmt.Errorf("...: %w", err)`. -/
def createKeyAt (dbCheck dbInsert : DB) (t : String) (plainKey : List Nat)
    (encrypt : List Nat → Option (List Nat)) (newId : String) (now : Nat) :
    Except GoError (KeyMetadata × DB) :=
  if existsByTenantID dbCheck t then
    .error .keyAlreadyExists
  else
    match encrypt plainKey with
    | none => .error (.wrap .kmsFailure)
    | some enc =>
      match repoCreate dbInsert
          ⟨newId, t, 1, enc, KeyStatus.active, now, now⟩ with
      | .error e => .error (.wrap e)
      | .ok db' => .ok (⟨t, 1, KeyStatus.active, now⟩, db')

/-- `KeyService.CreateKey` run without interference: both repository calls see
the same database state. -/
def createKey (db : DB) (t : String) (plainKey : List Nat)
    (encrypt : List Nat → Option (List Nat)) (newId : String) (now : Nat) :
    Except GoError (KeyMetadata × DB) :=
  createKeyAt db db t plainKey encrypt newId now

/-- `KeyService.GetCurrentKey`. -/
def getCurrentKey (db : DB) (t : String)
    (decrypt : List Nat → Option (List Nat)) : Except GoError Key :=
  match findLatestActiveByTenantID db t with
  | none => .error .keyNotFound
  | some k =>
    match decrypt k.encryptedKey with
    | none => .error (.wrap .kmsFailure)
    | some plain => .ok ⟨k.tenantID, k.generation, plain⟩

/-- `KeyService.GetKeyByGeneration`. -/
def getKeyByGeneration (db : DB) (t : String) (g : Nat)
    (decrypt : List Nat → Option (List Nat)) : Except GoError Key :=
  match findByTenantIDAndGeneration db t g with
  | none => .error .keyNotFound
  | some k =>
    if k.status == KeyStatus.disabled then
      .error .keyDisabled
    else
      match decrypt k.encryptedKey with
      | none => .error (.wrap .kmsFailure)
      | some plain => .ok ⟨k.tenantID, k.generation, plain⟩

/-- `KeyService.RotateKey` (`newGen := maxGen + 1` written inline). -/
def rotateKey (db : DB) (t : String) (plainKey : List Nat)
    (encrypt : List Nat → Option (List Nat)) (newId : String) (now : Nat) :
    Except GoError (KeyMetadata × DB) :=
  if getMaxGeneration db t == 0 then
    .error .keyNotFound
  else
    match encrypt plainKey with
    | none => .error (.wrap .kmsFailure)
    | some enc =>
      match repoCreate db
          ⟨newId, t, getMaxGeneration db t + 1, enc, KeyStatus.active, now, now⟩ with
      | .error e => .error (.wrap e)
      | .ok db' => .ok (⟨t, getMaxGeneration db t + 1, KeyStatus.active, now⟩, db')

/-- `KeyService.ListKeys`. -/
def listKeys (db : DB) (t : String) : List KeyMetadata :=
  (findAllByTenantID db t).map (fun k => ⟨k.tenantID, k.generation, k.status, k.createdAt⟩)

/-- `KeyService.DisableKey`; returns the updated table on success. -/
def disableKey (db : DB) (t : String) (g : Nat) (now : Nat) : Except GoError DB :=
  match findByTenantIDAndGeneration db t g with
  | none => .error .keyNotFound
  | some k =>
    if k.status == KeyStatus.disabled then
      .error .keyAlreadyDisabled
    else
      .ok (updateStatus db k.id KeyStatus.disabled now)

/-! ## HTTP façade (`internal/handler/key_handler.go`) -/

/-- One character of the tenant-id character class `[a-zA-Z0-9_-]`. -/
def isTenantChar (c : Char) : Bool :=
  c.isAlpha || c.isDigit || c == '_' || c == '-'

/-- `validateTenantID`: rejects the empty string, byte length above 64, and any
string not matching `^[a-zA-Z0-9_-]+$`. -/
def validateTenantID (s : String) : Except GoError Unit :=
  if s.isEmpty then .error .invalidTenantID
  else if s.utf8ByteSize > 64 then .error .invalidTenantID
  else if s.toList.all isTenantChar then .ok () else .error .invalidTenantID

/-- Go's `strconv.ParseUint(s, 10, 32)`: a non-empty string of decimal digits
whose value fits in 32 bits; anything else (empty, stray characters, a sign,
or a value above `2^32 - 1`) is a parse error. -/
def goParseUint32 (s : String) : Option Nat :=
  if s.isEmpty then none
  else if s.toList.all (fun c => c.isDigit) then
    if s.toList.foldl (fun acc c => acc * 10 + (c.toNat - 48)) 0 < 4294967296 then
      some (s.toList.foldl (fun acc c => acc * 10 + (c.toNat - 48)) 0)
    else none
  else none

/-- `validateGeneration`: `ParseUint(genStr, 10, 32)` then reject values `< 1`. -/
def validateGeneration (s : String) : Except GoError Nat :=
  match goParseUint32 s with
  | none => .error .invalidGeneration
  | some g => if g < 1 then .error .invalidGeneration else .ok g

/-- One audit event as written by `middleware.WriteAuditLog`. -/
structure AuditEvent where
  operation : String
  tenantID : String
  generation : Nat
  result : String
deriving DecidableEq, Repr

/-- An HTTP response: status code, plus the error body's `code` field
(`none` for success bodies). -/
structure HttpResponse where
  status : Nat
  errorCode : Option String
deriving DecidableEq, Repr

/-- `KeyHandler.CreateKey`, with the service's repository calls split between
`dbCheck` and `dbInsert` as in `createKeyAt`.  Returns the response, the audit
events written while handling the request, and the resulting table state. -/
def createKeyHandlerAt (dbCheck dbInsert : DB) (t : String) (plainKey : List Nat)
    (encrypt : List Nat → Option (List Nat)) (newId : String) (now : Nat) :
    HttpResponse × List AuditEvent × DB :=
  match validateTenantID t with
  | .error _ => (⟨400, some "INVALID_TENANT_ID"⟩, [], dbInsert)
  | .ok _ =>
    match createKeyAt dbCheck dbInsert t plainKey encrypt newId now with
    | .error e =>
      if errorIs e .keyAlreadyExists then
        (⟨409, some "KEY_ALREADY_EXISTS"⟩, [⟨"CREATE_KEY", t, 0, "FAILED"⟩], dbInsert)
      else
        (⟨500, some "INTERNAL_ERROR"⟩, [⟨"CREATE_KEY", t, 0, "FAILED"⟩], dbInsert)
    | .ok (md, db') =>
      (⟨201, none⟩, [⟨"CREATE_KEY", t, md.generation, "SUCCESS"⟩], db')

/-- `KeyHandler.CreateKey` without interference. -/
def createKeyHandler (db : DB) (t : String) (plainKey : List Nat)
    (encrypt : List Nat → Option (List Nat)) (newId : String) (now : Nat) :
    HttpResponse × List AuditEvent × DB :=
  createKeyHandlerAt db db t plainKey encrypt newId now

/-- `KeyHandler.GetCurrentKey`. -/
def getCurrentKeyHandler (db : DB) (t : String)
    (decrypt : List Nat → Option (List Nat)) : HttpResponse × List AuditEvent :=
  match validateTenantID t with
  | .error _ => (⟨400, some "INVALID_TENANT_ID"⟩, [])
  | .ok _ =>
    match getCurrentKey db t decrypt with
    | .error e =>
      if errorIs e .keyNotFound then
        (⟨404, some "KEY_NOT_FOUND"⟩, [⟨"GET_CURRENT_KEY", t, 0, "FAILED"⟩])
      else
        (⟨500, some "INTERNAL_ERROR"⟩, [⟨"GET_CURRENT_KEY", t, 0, "FAILED"⟩])
    | .ok k =>
      (⟨200, none⟩, [⟨"GET_CURRENT_KEY", t, k.generation, "SUCCESS"⟩])

/-- `KeyHandler.GetKeyByGeneration`; `gs` is the raw `{generation}` path segment. -/
def getKeyByGenerationHandler (db : DB) (t : String) (gs : String)
    (decrypt : List Nat → Option (List Nat)) : HttpResponse × List AuditEvent :=
  match validateTenantID t with
  | .error _ => (⟨400, some "INVALID_TENANT_ID"⟩, [])
  | .ok _ =>
    match validateGeneration gs with
    | .error _ => (⟨400, some "INVALID_GENERATION"⟩, [])
    | .ok g =>
      match getKeyByGeneration db t g decrypt with
      | .error e =>
        if errorIs e .keyNotFound then
          (⟨404, some "KEY_NOT_FOUND"⟩, [⟨"GET_KEY_BY_GENERATION", t, g, "FAILED"⟩])
        else if errorIs e .keyDisabled then
          (⟨410, some "KEY_DISABLED"⟩, [⟨"GET_KEY_BY_GENERATION", t, g, "FAILED"⟩])
        else
          (⟨500, some "INTERNAL_ERROR"⟩, [⟨"GET_KEY_BY_GENERATION", t, g, "FAILED"⟩])
      | .ok _ =>
        (⟨200, none⟩, [⟨"GET_KEY_BY_GENERATION", t, g, "SUCCESS"⟩])

/-- `KeyHandler.RotateKey`. -/
def rotateKeyHandler (db : DB) (t : String) (plainKey : List Nat)
    (encrypt : List Nat → Option (List Nat)) (newId : String) (now : Nat) :
    HttpResponse × List AuditEvent × DB :=
  match validateTenantID t with
  | .error _ => (⟨400, some "INVALID_TENANT_ID"⟩, [], db)
  | .ok _ =>
    match rotateKey db t plainKey encrypt newId now with
    | .error e =>
      if errorIs e .keyNotFound then
        (⟨404, some "KEY_NOT_FOUND"⟩, [⟨"ROTATE_KEY", t, 0, "FAILED"⟩], db)
      else
        (⟨500, some "INTERNAL_ERROR"⟩, [⟨"ROTATE_KEY", t, 0, "FAILED"⟩], db)
    | .ok (md, db') =>
      (⟨201, none⟩, [⟨"ROTATE_KEY", t, md.generation, "SUCCESS"⟩], db')

/-- `KeyHandler.ListKeys`. -/
def listKeysHandler (db : DB) (t : String) : HttpResponse × List AuditEvent :=
  match validateTenantID t with
  | .error _ => (⟨400, some "INVALID_TENANT_ID"⟩, [])
  | .ok _ =>
    let _ := listKeys db t
    (⟨200, none⟩, [⟨"LIST_KEYS", t, 0, "SUCCESS"⟩])

/-- `KeyHandler.DisableKey`. -/
def disableKeyHandler (db : DB) (t : String) (gs : String) (now : Nat) :
    HttpResponse × List AuditEvent × DB :=
  match validateTenantID t with
  | .error _ => (⟨400, some "INVALID_TENANT_ID"⟩, [], db)
  | .ok _ =>
    match validateGeneration gs with
    | .error _ => (⟨400, some "INVALID_GENERATION"⟩, [], db)
    | .ok g =>
      match disableKey db t g now with
      | .error e =>
        if errorIs e .keyNotFound then
          (⟨404, some "KEY_NOT_FOUND"⟩, [⟨"DISABLE_KEY", t, g, "FAILED"⟩], db)
        else if errorIs e .keyAlreadyDisabled then
          (⟨409, some "KEY_ALREADY_DISABLED"⟩, [⟨"DISABLE_KEY", t, g, "FAILED"⟩], db)
        else
          (⟨500, some "INTERNAL_ERROR"⟩, [⟨"DISABLE_KEY", t, g, "FAILED"⟩], db)
      | .ok db' =>
        (⟨202, none⟩, [⟨"DISABLE_KEY", t, g, "SUCCESS"⟩], db')

/-! ## Migration engine (`migration_service.go`, `infra/database.go`) -/

/-- One directory entry of the migrations directory, as seen by `os.ReadDir`. -/
structure MigFile where
  name : String
  path : String
  isDir : Bool
deriving DecidableEq, Repr

/-- One discovered migration (`domain.Migration`, the fields the engine uses). -/
structure Migration where
  version : String
  name : String
  filePath : String
deriving DecidableEq, Repr

/-- The `schema_migrations` table: the recorded versions, in insertion order.
`version` is the primary key. -/
structure MigState where
  applied : List String
deriving DecidableEq, Repr

/-- `MigrationRepository.IsMigrationApplied`:
`SELECT COUNT(*) WHERE version = ?`, reported as `count > 0`. -/
def isMigrationApplied (st : MigState) (v : String) : Bool :=
  st.applied.contains v

/-- `strings.HasSuffix(s, ".sql")`, over the character list. -/
def hasSqlSuffix (s : String) : Bool :=
  ".sql".toList.isSuffixOf s.toList

/-- `strings.TrimSuffix(s, ".sql")`. -/
def trimSqlSuffix (s : String) : String :=
  if hasSqlSuffix s then ⟨s.toList.take (s.toList.length - 4)⟩ else s

/-- `strings.SplitN(s, "_", 2)` when it produces two parts: the text before the
first underscore and everything after it; `none` when `s` has no underscore. -/
def splitFirstUnderscore : List Char → Option (List Char × List Char)
  | [] => none
  | c :: rest =>
    if c == '_' then some ([], rest)
    else
      match splitFirstUnderscore rest with
      | none => none
      | some (a, b) => some (c :: a, b)

/-- `parseMigrationFileName`: `{version}_{name}.sql`; fails with
`ErrInvalidMigrationFile` (wrapped) when there is no underscore. -/
def parseMigrationFileName (filename : String) : Except GoError (String × String) :=
  match splitFirstUnderscore (trimSqlSuffix filename).toList with
  | none => .error (.wrap .invalidMigrationFile)
  | some (v, n) => .ok (⟨v⟩, ⟨n⟩)

/-- Go's `<` on strings: lexicographic byte-wise comparison (char-wise here). -/
def charsLt : List Char → List Char → Bool
  | [], [] => false
  | [], _ :: _ => true
  | _ :: _, [] => false
  | a :: as, b :: bs =>
    if a.toNat < b.toNat then true
    else if b.toNat < a.toNat then false
    else charsLt as bs

/-- Ascending insertion by version string (the engine's
`sort.Slice` with `Version < Version`). -/
def insertByVersion (m : Migration) : List Migration → List Migration
  | [] => [m]
  | x :: xs =>
    if charsLt m.version.toList x.version.toList then m :: x :: xs
    else x :: insertByVersion m xs

/-- Build one `Migration` from a directory entry, parsing its file name. -/
def scanOne (f : MigFile) : Except GoError Migration :=
  match parseMigrationFileName f.name with
  | .error e => .error e
  | .ok (v, n) => .ok ⟨v, n, f.path⟩

/-- `MigrationService.scanMigrationFiles`: keep non-directory entries named
`*.sql`, parse each name, sort by version. -/
def scanMigrationFiles (files : List MigFile) : Except GoError (List Migration) :=
  match (files.filter (fun f => !f.isDir && hasSqlSuffix f.name)).mapM scanOne with
  | .error e => .error e
  | .ok ms => .ok (ms.foldr insertByVersion [])

/-- `MigrationService.applyMigration`: read and execute the file's SQL and insert
the version row into `schema_migrations`, all in one transaction — on any error
the transaction rolls back and the state is unchanged.  `execOk` says whether
reading plus executing the file at a given path succeeds; the version insert
fails on a duplicate primary key. -/
def applyMigration (execOk : String → Bool) (st : MigState) (m : Migration) :
    Except GoError MigState :=
  if !execOk m.filePath then .error (.wrap .dbFailure)
  else if isMigrationApplied st m.version then .error (.wrap .dbConflict)
  else .ok ⟨st.applied ++ [m.version]⟩

/-- The application loop of `ApplyMigrations`: apply pending migrations in
order, counting them; the first failure aborts the run (wrapped in
`ErrMigrationFailed`) with the earlier applications kept. -/
def applyLoop (execOk : String → Bool) :
    MigState → Nat → List Migration → MigState × Nat × Option GoError
  | st, n, [] => (st, n, none)
  | st, n, m :: rest =>
    match applyMigration execOk st m with
    | .error _ => (st, n, some (.wrap .migrationFailed))
    | .ok st' => applyLoop execOk st' (n + 1) rest

/-- `MigrationService.ApplyMigrations`: scan the directory, filter versions
already in `schema_migrations`, apply the rest in order.  Returns the resulting
history state, the number of migrations applied, and the error if the run
aborted (Go returns `(appliedCount, err)`; the state lives in the database). -/
def applyMigrations (execOk : String → Bool) (files : List MigFile)
    (st : MigState) : MigState × Nat × Option GoError :=
  match scanMigrationFiles files with
  | .error e => (st, 0, some e)
  | .ok all =>
    let pending := all.filter (fun m => !isMigrationApplied st m.version)
    if pending.isEmpty then (st, 0, none)
    else applyLoop execOk st 0 pending

/-! ## Helper lemmas -/

theorem existsByTenantID_eq_false_iff (db : DB) (t : String) :
    existsByTenantID db t = false ↔ ∀ r ∈ db, r.tenantID ≠ t := by
  simp [existsByTenantID, List.any_eq_false, beq_iff_eq]

theorem getMaxGeneration_append (db : DB) (k : EncryptionKey) (t : String) :
    getMaxGeneration (db ++ [k]) t
      = max (getMaxGeneration db t) (if k.tenantID = t then k.generation else 0) := by
  unfold getMaxGeneration
  rw [List.filter_append, List.foldl_append]
  by_cases h : k.tenantID = t
  · simp [h]
  · simp [h]

theorem getMaxGeneration_eq_zero_of_not_exists (db : DB) (t : String)
    (h : existsByTenantID db t = false) : getMaxGeneration db t = 0 := by
  have hfil : db.filter (fun k => k.tenantID == t) = [] := by
    rw [List.filter_eq_nil_iff]
    intro a ha
    have := (existsByTenantID_eq_false_iff db t).mp h a ha
    simp [this]
  unfold getMaxGeneration
  rw [hfil]
  rfl

/-! ## C1 — sequential generation assignment -/

/-- C1: a successful `CreateKey(T)` inserts a record with generation 1 and
status active (starting from `MaxGeneration(T) = 0`), and a successful
`RotateKey(T)` starting from `MaxGeneration(T) = M ≥ 1` inserts a record with
generation exactly `M + 1` and status active; in both cases `MaxGeneration(T)`
grows by exactly 1. -/
theorem generation_assignment_sequential
    (db : DB) (t : String) (plainKey : List Nat)
    (encrypt : List Nat → Option (List Nat)) (newId : String) (now : Nat)
    (md : KeyMetadata) (db' : DB) :
    (createKey db t plainKey encrypt newId now = .ok (md, db') →
      getMaxGeneration db t = 0 ∧
      md.generation = 1 ∧ md.status = KeyStatus.active ∧
      (∃ r ∈ db', r.tenantID = t ∧ r.generation = 1 ∧ r.status = KeyStatus.active) ∧
      getMaxGeneration db' t = getMaxGeneration db t + 1) ∧
    (rotateKey db t plainKey encrypt newId now = .ok (md, db') →
      1 ≤ getMaxGeneration db t ∧
      md.generation = getMaxGeneration db t + 1 ∧ md.status = KeyStatus.active ∧
      (∃ r ∈ db', r.tenantID = t ∧ r.generation = getMaxGeneration db t + 1 ∧
        r.status = KeyStatus.active) ∧
      getMaxGeneration db' t = getMaxGeneration db t + 1) := by
  constructor
  · intro h
    unfold createKey createKeyAt at h
    by_cases hex : existsByTenantID db t = true
    · rw [if_pos hex] at h
      exact Except.noConfusion h
    · rw [if_neg hex] at h
      have hexf : existsByTenantID db t = false := Bool.not_eq_true _ ▸ hex
      cases henc : encrypt plainKey with
      | none =>
        rw [henc] at h
        exact Except.noConfusion h
      | some enc =>
        rw [henc] at h
        unfold repoCreate at h
        dsimp only at h
        by_cases hid : db.any (fun r => r.id == newId) = true
        · rw [if_pos hid] at h
          exact Except.noConfusion h
        · rw [if_neg hid] at h
          by_cases hug : db.any (fun r => r.tenantID == t && r.generation == 1) = true
          · rw [if_pos hug] at h
            exact Except.noConfusion h
          · rw [if_neg hug] at h
            simp only [Except.ok.injEq, Prod.mk.injEq] at h
            obtain ⟨hmd, hdb⟩ := h
            have hzero := getMaxGeneration_eq_zero_of_not_exists db t hexf
            subst hmd hdb
            refine ⟨hzero, rfl, rfl, ⟨⟨newId, t, 1, enc, KeyStatus.active, now, now⟩,
              ?_, rfl, rfl, rfl⟩, ?_⟩
            · exact List.mem_append_right db (List.mem_singleton.mpr rfl)
            · rw [getMaxGeneration_append, hzero]
              simp
  · intro h
    unfold rotateKey at h
    by_cases hz : (getMaxGeneration db t == 0) = true
    · rw [if_pos hz] at h
      exact Except.noConfusion h
    · rw [if_neg hz] at h
      have hz' : getMaxGeneration db t ≠ 0 := by
        intro h0
        exact hz (by simp [h0])
      cases henc : encrypt plainKey with
      | none =>
        rw [henc] at h
        exact Except.noConfusion h
      | some enc =>
        rw [henc] at h
        unfold repoCreate at h
        dsimp only at h
        by_cases hid : db.any (fun r => r.id == newId) = true
        · rw [if_pos hid] at h
          exact Except.noConfusion h
        · rw [if_neg hid] at h
          by_cases hug : db.any
              (fun r => r.tenantID == t && r.generation == getMaxGeneration db t + 1) = true
          · rw [if_pos hug] at h
            exact Except.noConfusion h
          · rw [if_neg hug] at h
            simp only [Except.ok.injEq, Prod.mk.injEq] at h
            obtain ⟨hmd, hdb⟩ := h
            subst hmd hdb
            refine ⟨Nat.one_le_iff_ne_zero.mpr hz', rfl, rfl,
              ⟨⟨newId, t, getMaxGeneration db t + 1, enc, KeyStatus.active, now, now⟩,
                ?_, rfl, rfl, rfl⟩, ?_⟩
            · exact List.mem_append_right db (List.mem_singleton.mpr rfl)
            · rw [getMaxGeneration_append]
              simp [Nat.max_eq_right (Nat.le_succ (getMaxGeneration db t))]

/-- Witness for C1: creating on an empty table takes `MaxGeneration` from 0
to 1; rotating on a one-record table takes it from 1 to 2. -/
theorem generation_assignment_sequential_witness :
    getMaxGeneration [⟨"k1", "tenant-001", 1, [0], KeyStatus.active, 0, 0⟩]
        "tenant-001"
      = getMaxGeneration ([] : DB) "tenant-001" + 1 ∧
    getMaxGeneration
        [⟨"k1", "tenant-001", 1, [0], KeyStatus.active, 0, 0⟩,
         ⟨"k2", "tenant-001", 2, [1], KeyStatus.active, 3, 3⟩] "tenant-001"
      = getMaxGeneration [⟨"k1", "tenant-001", 1, [0], KeyStatus.active, 0, 0⟩]
          "tenant-001" + 1 := by
  constructor
  · exact ((generation_assignment_sequential [] "tenant-001" [0] (fun x => some x)
      "k1" 0 ⟨"tenant-001", 1, KeyStatus.active, 0⟩
      [⟨"k1", "tenant-001", 1, [0], KeyStatus.active, 0, 0⟩]).1 rfl).2.2.2.2
  · exact ((generation_assignment_sequential
      [⟨"k1", "tenant-001", 1, [0], KeyStatus.active, 0, 0⟩] "tenant-001" [1]
      (fun x => some x) "k2" 3 ⟨"tenant-001", 2, KeyStatus.active, 3⟩
      [⟨"k1", "tenant-001", 1, [0], KeyStatus.active, 0, 0⟩,
       ⟨"k2", "tenant-001", 2, [1], KeyStatus.active, 3, 3⟩]).2 rfl).2.2.2.2

/-! ## C3 — `GetCurrentKey` returns the latest active generation -/

theorem pickMax_foldl_some (l : List EncryptionKey) :
    ∀ m : EncryptionKey, ∃ r, l.foldl pickMax (some m) = some r ∧
      (r = m ∨ r ∈ l) ∧ m.generation ≤ r.generation ∧
      ∀ x ∈ l, x.generation ≤ r.generation := by
  induction l with
  | nil =>
    intro m
    exact ⟨m, rfl, Or.inl rfl, Nat.le_refl _, by simp⟩
  | cons x xs ih =>
    intro m
    simp only [List.foldl_cons]
    by_cases hx : m.generation < x.generation
    · have hstep : pickMax (some m) x = some x := by simp [pickMax, hx]
      rw [hstep]
      obtain ⟨r, hr, hmem, hge, hub⟩ := ih x
      refine ⟨r, hr, ?_, Nat.le_trans (Nat.le_of_lt hx) hge, ?_⟩
      · cases hmem with
        | inl h => exact Or.inr (h ▸ List.mem_cons_self x xs)
        | inr h => exact Or.inr (List.mem_cons_of_mem x h)
      · intro y hy
        cases List.mem_cons.mp hy with
        | inl h => exact h ▸ hge
        | inr h => exact hub y h
    · have hstep : pickMax (some m) x = some m := by simp [pickMax, hx]
      rw [hstep]
      obtain ⟨r, hr, hmem, hge, hub⟩ := ih m
      refine ⟨r, hr, ?_, hge, ?_⟩
      · cases hmem with
        | inl h => exact Or.inl h
        | inr h => exact Or.inr (List.mem_cons_of_mem x h)
      · intro y hy
        cases List.mem_cons.mp hy with
        | inl h => exact h ▸ Nat.le_trans (Nat.le_of_not_lt hx) hge
        | inr h => exact hub y h

theorem findLatestActive_eq_none_iff (db : DB) (t : String) :
    findLatestActiveByTenantID db t = none ↔
      ∀ r ∈ db, r.tenantID = t → r.status ≠ KeyStatus.active := by
  unfold findLatestActiveByTenantID
  cases hfil : db.filter (fun k => k.tenantID == t && k.status == KeyStatus.active) with
  | nil =>
    simp only [List.foldl_nil]
    constructor
    · intro _ r hr ht hs
      have hmem : r ∈ db.filter
          (fun k => k.tenantID == t && k.status == KeyStatus.active) :=
        List.mem_filter.mpr ⟨hr, by simp [ht, hs]⟩
      rw [hfil] at hmem
      cases hmem
    · intro _
      trivial
  | cons x xs =>
    simp only [List.foldl_cons]
    have hstep : pickMax none x = some x := rfl
    rw [hstep]
    obtain ⟨r, hr, _, _, _⟩ := pickMax_foldl_some xs x
    rw [hr]
    constructor
    · intro hcon
      cases hcon
    · intro hall
      exfalso
      have hx : x ∈ db.filter
          (fun k => k.tenantID == t && k.status == KeyStatus.active) := by
        rw [hfil]
        exact List.mem_cons_self x xs
      rw [List.mem_filter] at hx
      obtain ⟨hxdb, hxp⟩ := hx
      simp only [Bool.and_eq_true, beq_iff_eq] at hxp
      exact hall x hxdb hxp.1 hxp.2

theorem findLatestActive_eq_some (db : DB) (t : String) (r : EncryptionKey)
    (h : findLatestActiveByTenantID db t = some r) :
    r ∈ db ∧ r.tenantID = t ∧ r.status = KeyStatus.active ∧
      ∀ x ∈ db, x.tenantID = t → x.status = KeyStatus.active →
        x.generation ≤ r.generation := by
  unfold findLatestActiveByTenantID at h
  cases hfil : db.filter (fun k => k.tenantID == t && k.status == KeyStatus.active) with
  | nil =>
    rw [hfil] at h
    cases h
  | cons x xs =>
    rw [hfil] at h
    simp only [List.foldl_cons] at h
    have hstep : pickMax none x = some x := rfl
    rw [hstep] at h
    obtain ⟨r', hr', hmem, hge, hub⟩ := pickMax_foldl_some xs x
    rw [hr'] at h
    injection h with h
    subst h
    have hmemfil : r' ∈ db.filter
        (fun k => k.tenantID == t && k.status == KeyStatus.active) := by
      rw [hfil]
      cases hmem with
      | inl he => exact he ▸ List.mem_cons_self x xs
      | inr he => exact List.mem_cons_of_mem x he
    rw [List.mem_filter] at hmemfil
    obtain ⟨hrdb, hrp⟩ := hmemfil
    simp only [Bool.and_eq_true, beq_iff_eq] at hrp
    refine ⟨hrdb, hrp.1, hrp.2, ?_⟩
    intro y hy hyt hys
    have hyfil : y ∈ db.filter
        (fun k => k.tenantID == t && k.status == KeyStatus.active) :=
      List.mem_filter.mpr ⟨hy, by simp [hyt, hys]⟩
    rw [hfil] at hyfil
    cases List.mem_cons.mp hyfil with
    | inl he => exact he ▸ hge
    | inr he => exact hub y he

/-- C3: `GetCurrentKey(T)` fails with `KeyNotFound` exactly when T has no
active record; when it succeeds it returns the decrypted plaintext of an
active record of T whose generation dominates every active record of T
(disabled records are skipped even at higher generations). -/
theorem getCurrentKey_returns_latest_active (db : DB) (t : String)
    (decrypt : List Nat → Option (List Nat)) :
    (getCurrentKey db t decrypt = .error .keyNotFound ↔
      ∀ r ∈ db, r.tenantID = t → r.status ≠ KeyStatus.active) ∧
    ∀ k, getCurrentKey db t decrypt = .ok k →
      ∃ r ∈ db, r.tenantID = t ∧ r.status = KeyStatus.active ∧
        (∀ x ∈ db, x.tenantID = t → x.status = KeyStatus.active →
          x.generation ≤ r.generation) ∧
        decrypt r.encryptedKey = some k.key ∧
        k.tenantID = t ∧ k.generation = r.generation := by
  constructor
  · cases hf : findLatestActiveByTenantID db t with
    | none =>
      unfold getCurrentKey
      rw [hf]
      exact ⟨fun _ => (findLatestActive_eq_none_iff db t).mp hf, fun _ => rfl⟩
    | some k0 =>
      obtain ⟨hmem, ht, hact, _⟩ := findLatestActive_eq_some db t k0 hf
      have hnall : ¬(∀ r ∈ db, r.tenantID = t → r.status ≠ KeyStatus.active) :=
        fun hall => hall k0 hmem ht hact
      unfold getCurrentKey
      rw [hf]
      dsimp only
      cases hd : decrypt k0.encryptedKey with
      | none =>
        exact ⟨fun hcon => absurd hcon (by simp), fun hall => absurd hall hnall⟩
      | some plain =>
        exact ⟨fun hcon => absurd hcon (by simp), fun hall => absurd hall hnall⟩
  · intro k hk
    unfold getCurrentKey at hk
    cases hf : findLatestActiveByTenantID db t with
    | none =>
      rw [hf] at hk
      exact Except.noConfusion hk
    | some k0 =>
      rw [hf] at hk
      dsimp only at hk
      obtain ⟨hmem, ht, hact, hub⟩ := findLatestActive_eq_some db t k0 hf
      cases hd : decrypt k0.encryptedKey with
      | none =>
        rw [hd] at hk
        exact Except.noConfusion hk
      | some plain =>
        rw [hd] at hk
        simp only [Except.ok.injEq] at hk
        subst hk
        exact ⟨k0, hmem, ht, hact, hub, hd, ht, rfl⟩

/-- A table for exercising `GetCurrentKey`: generations 1 and 2 active,
generation 3 disabled, so the current key is generation 2. -/
def dbEx3 : DB :=
  [⟨"a", "t", 1, [1], KeyStatus.active, 0, 0⟩,
   ⟨"b", "t", 2, [2], KeyStatus.active, 0, 0⟩,
   ⟨"c", "t", 3, [3], KeyStatus.disabled, 0, 0⟩]

/-- Witness for C3: on `dbEx3` the returned key is generation 2's plaintext,
skipping the disabled generation 3. -/
theorem getCurrentKey_returns_latest_active_witness :
    ∃ r ∈ dbEx3, r.tenantID = "t" ∧ r.status = KeyStatus.active ∧
      (∀ x ∈ dbEx3, x.tenantID = "t" → x.status = KeyStatus.active →
        x.generation ≤ r.generation) ∧
      (fun x => some x) r.encryptedKey = some [2] ∧
      ("t" : String) = "t" ∧ 2 = r.generation :=
  (getCurrentKey_returns_latest_active dbEx3 "t" (fun x => some x)).2
    ⟨"t", 2, [2]⟩ rfl

/-! ## C4 — `GetKeyByGeneration` failure modes -/

theorem WFrel_symm : Symmetric (fun a b : EncryptionKey =>
    a.id ≠ b.id ∧ (a.tenantID ≠ b.tenantID ∨ a.generation ≠ b.generation)) := by
  intro a b h
  exact ⟨h.1.symm, h.2.imp Ne.symm Ne.symm⟩

theorem WFdb_find_unique (db : DB) (t : String) (g : Nat) (hwf : WFdb db)
    (r : EncryptionKey) (hr : r ∈ db) (ht : r.tenantID = t) (hg : r.generation = g) :
    findByTenantIDAndGeneration db t g = some r := by
  unfold WFdb at hwf
  unfold findByTenantIDAndGeneration
  cases hf : db.find? (fun k => k.tenantID == t && k.generation == g) with
  | none =>
    exfalso
    rw [List.find?_eq_none] at hf
    exact hf r hr (by simp [ht, hg])
  | some r0 =>
    have hp := List.find?_some hf
    have hmem0 := List.mem_of_find?_eq_some hf
    simp only [Bool.and_eq_true, beq_iff_eq] at hp
    by_cases he : r0 = r
    · rw [he]
    · exfalso
      have hrel := (List.Pairwise.forall WFrel_symm hwf) hmem0 hr he
      cases hrel.2 with
      | inl hc => exact hc (hp.1.trans ht.symm)
      | inr hc => exact hc (hp.2.trans hg.symm)

theorem getKeyByGenerationHandler_resp (db : DB) (t gs : String) (g : Nat)
    (decrypt : List Nat → Option (List Nat))
    (hvt : validateTenantID t = .ok ()) (hvg : validateGeneration gs = .ok g) :
    (getKeyByGenerationHandler db t gs decrypt).1 =
      match getKeyByGeneration db t g decrypt with
      | .error e =>
        if errorIs e .keyNotFound then ⟨404, some "KEY_NOT_FOUND"⟩
        else if errorIs e .keyDisabled then ⟨410, some "KEY_DISABLED"⟩
        else ⟨500, some "INTERNAL_ERROR"⟩
      | .ok _ => ⟨200, none⟩ := by
  unfold getKeyByGenerationHandler
  rw [hvt, hvg]
  dsimp only
  cases hsvc : getKeyByGeneration db t g decrypt with
  | error e =>
    by_cases h1 : errorIs e GoError.keyNotFound = true
    · simp [h1]
    · by_cases h2 : errorIs e GoError.keyDisabled = true
      · simp [h1, h2]
      · simp [h1, h2]
  | ok k => simp

/-- C4: `GetKeyByGeneration(T, g)` yields `KeyNotFound` (handler: 404
`KEY_NOT_FOUND`) exactly when no record `(T, g)` exists, `KeyDisabled`
(handler: 410 `KEY_DISABLED`) exactly when the record exists with status
disabled, and plaintext only for a record with status active. -/
theorem getKeyByGeneration_failure_modes (db : DB) (t : String) (g : Nat)
    (decrypt : List Nat → Option (List Nat)) (hwf : WFdb db) :
    (getKeyByGeneration db t g decrypt = .error .keyNotFound ↔
      ∀ r ∈ db, ¬(r.tenantID = t ∧ r.generation = g)) ∧
    (getKeyByGeneration db t g decrypt = .error .keyDisabled ↔
      ∃ r ∈ db, r.tenantID = t ∧ r.generation = g ∧ r.status = KeyStatus.disabled) ∧
    (∀ k, getKeyByGeneration db t g decrypt = .ok k →
      ∃ r ∈ db, r.tenantID = t ∧ r.generation = g ∧ r.status = KeyStatus.active ∧
        decrypt r.encryptedKey = some k.key) ∧
    (∀ gs, validateTenantID t = .ok () → validateGeneration gs = .ok g →
      (((getKeyByGenerationHandler db t gs decrypt).1
          = (⟨404, some "KEY_NOT_FOUND"⟩ : HttpResponse) ↔
        ∀ r ∈ db, ¬(r.tenantID = t ∧ r.generation = g)) ∧
       ((getKeyByGenerationHandler db t gs decrypt).1
          = (⟨410, some "KEY_DISABLED"⟩ : HttpResponse) ↔
        ∃ r ∈ db, r.tenantID = t ∧ r.generation = g ∧
          r.status = KeyStatus.disabled))) := by
  cases hf : findByTenantIDAndGeneration db t g with
  | none =>
    have hno : ∀ r ∈ db, ¬(r.tenantID = t ∧ r.generation = g) := by
      intro r hr hc
      rw [findByTenantIDAndGeneration, List.find?_eq_none] at hf
      exact hf r hr (by simp [hc.1, hc.2])
    have hsvc : getKeyByGeneration db t g decrypt = .error .keyNotFound := by
      unfold getKeyByGeneration
      rw [hf]
    refine ⟨⟨fun _ => hno, fun _ => hsvc⟩, ⟨?_, ?_⟩, ?_, ?_⟩
    · intro hcon
      rw [hsvc] at hcon
      simp at hcon
    · rintro ⟨r, hr, h1, h2, _⟩
      exact absurd ⟨h1, h2⟩ (hno r hr)
    · intro k hk
      rw [hsvc] at hk
      exact Except.noConfusion hk
    · intro gs hvt hvg
      have hresp := getKeyByGenerationHandler_resp db t gs g decrypt hvt hvg
      rw [hsvc] at hresp
      simp only [errorIs, beq_self_eq_true, if_true] at hresp
      rw [hresp]
      constructor
      · exact ⟨fun _ => hno, fun _ => rfl⟩
      · constructor
        · intro hcon
          simp at hcon
        · rintro ⟨r, hr, h1, h2, _⟩
          exact absurd ⟨h1, h2⟩ (hno r hr)
  | some r0 =>
    have hp : r0.tenantID = t ∧ r0.generation = g := by
      have := List.find?_some (findByTenantIDAndGeneration.eq_def db t g ▸ hf)
      simpa [Bool.and_eq_true, beq_iff_eq] using this
    have hmem : r0 ∈ db :=
      List.mem_of_find?_eq_some (findByTenantIDAndGeneration.eq_def db t g ▸ hf)
    have hrec : ¬(∀ r ∈ db, ¬(r.tenantID = t ∧ r.generation = g)) :=
      fun hall => hall r0 hmem ⟨hp.1, hp.2⟩
    by_cases hst : r0.status = KeyStatus.disabled
    · have hsvc : getKeyByGeneration db t g decrypt = .error .keyDisabled := by
        unfold getKeyByGeneration
        rw [hf]
        dsimp only
        rw [if_pos (by simp [hst])]
      have hdis : ∃ r ∈ db, r.tenantID = t ∧ r.generation = g ∧
          r.status = KeyStatus.disabled := ⟨r0, hmem, hp.1, hp.2, hst⟩
      refine ⟨⟨?_, ?_⟩, ⟨fun _ => hdis, fun _ => hsvc⟩, ?_, ?_⟩
      · intro hcon
        rw [hsvc] at hcon
        simp at hcon
      · intro hall
        exact absurd hall hrec
      · intro k hk
        rw [hsvc] at hk
        exact Except.noConfusion hk
      · intro gs hvt hvg
        have hresp := getKeyByGenerationHandler_resp db t gs g decrypt hvt hvg
        rw [hsvc] at hresp
        simp only [errorIs, beq_iff_eq, beq_self_eq_true, if_true,
          reduceCtorEq, if_false] at hresp
        rw [hresp]
        constructor
        · constructor
          · intro hcon
            simp at hcon
          · intro hall
            exact absurd hall hrec
        · exact ⟨fun _ => hdis, fun _ => rfl⟩
    · have hact : r0.status = KeyStatus.active := by
        cases h : r0.status
        · rfl
        · exact absurd h hst
      have hnodis : ¬(∃ r ∈ db, r.tenantID = t ∧ r.generation = g ∧
          r.status = KeyStatus.disabled) := by
        rintro ⟨r', hr', h1, h2, h3⟩
        have hu := WFdb_find_unique db t g hwf r' hr' h1 h2
        rw [hf] at hu
        injection hu with hu
        exact hst (hu ▸ h3)
      cases hd : decrypt r0.encryptedKey with
      | none =>
        have hsvc : getKeyByGeneration db t g decrypt
            = .error (.wrap .kmsFailure) := by
          unfold getKeyByGeneration
          rw [hf]
          dsimp only
          rw [if_neg (by simp [hact]), hd]
        refine ⟨⟨?_, ?_⟩, ⟨?_, ?_⟩, ?_, ?_⟩
        · intro hcon
          rw [hsvc] at hcon
          simp at hcon
        · intro hall
          exact absurd hall hrec
        · intro hcon
          rw [hsvc] at hcon
          simp at hcon
        · intro hex
          exact absurd hex hnodis
        · intro k hk
          rw [hsvc] at hk
          exact Except.noConfusion hk
        · intro gs hvt hvg
          have hresp := getKeyByGenerationHandler_resp db t gs g decrypt hvt hvg
          rw [hsvc] at hresp
          simp only [errorIs, beq_iff_eq, reduceCtorEq, Bool.or_self,
            Bool.false_or, if_false] at hresp
          rw [hresp]
          constructor
          · constructor
            · intro hcon
              simp at hcon
            · intro hall
              exact absurd hall hrec
          · constructor
            · intro hcon
              simp at hcon
            · intro hex
              exact absurd hex hnodis
      | some plain =>
        have hsvc : getKeyByGeneration db t g decrypt
            = .ok ⟨r0.tenantID, r0.generation, plain⟩ := by
          unfold getKeyByGeneration
          rw [hf]
          dsimp only
          rw [if_neg (by simp [hact]), hd]
        refine ⟨⟨?_, ?_⟩, ⟨?_, ?_⟩, ?_, ?_⟩
        · intro hcon
          rw [hsvc] at hcon
          exact Except.noConfusion hcon
        · intro hall
          exact absurd hall hrec
        · intro hcon
          rw [hsvc] at hcon
          exact Except.noConfusion hcon
        · intro hex
          exact absurd hex hnodis
        · intro k hk
          rw [hsvc] at hk
          simp only [Except.ok.injEq] at hk
          subst hk
          exact ⟨r0, hmem, hp.1, hp.2, hact, hd⟩
        · intro gs hvt hvg
          have hresp := getKeyByGenerationHandler_resp db t gs g decrypt hvt hvg
          rw [hsvc] at hresp
          rw [hresp]
          constructor
          · constructor
            · intro hcon
              simp at hcon
            · intro hall
              exact absurd hall hrec
          · constructor
            · intro hcon
              simp at hcon
            · intro hex
              exact absurd hex hnodis

/-- A table with generation 1 active and generation 2 disabled. -/
def dbEx4 : DB :=
  [⟨"a", "t", 1, [1], KeyStatus.active, 0, 0⟩,
   ⟨"b", "t", 2, [2], KeyStatus.disabled, 0, 0⟩]

/-- Witness for C4: on `dbEx4`, requesting the disabled generation 2 yields
`KeyDisabled`, and the handler answers 410 `KEY_DISABLED`. -/
theorem getKeyByGeneration_failure_modes_witness :
    getKeyByGeneration dbEx4 "t" 2 (fun x => some x) = .error .keyDisabled ∧
    (getKeyByGenerationHandler dbEx4 "t" "2" (fun x => some x)).1
      = (⟨410, some "KEY_DISABLED"⟩ : HttpResponse) := by
  have h := getKeyByGeneration_failure_modes dbEx4 "t" 2 (fun x => some x)
    (by unfold WFdb dbEx4; simp)
  have hdis : ∃ r ∈ dbEx4, r.tenantID = "t" ∧ r.generation = 2 ∧
      r.status = KeyStatus.disabled :=
    ⟨⟨"b", "t", 2, [2], KeyStatus.disabled, 0, 0⟩, by unfold dbEx4; simp, rfl, rfl, rfl⟩
  exact ⟨h.2.1.mpr hdis, ((h.2.2.2 "2" rfl rfl).2).mpr hdis⟩

/-! ## C5, C6 — `DisableKey` behaviour -/

theorem find_some_props (db : DB) (t : String) (g : Nat) (r : EncryptionKey)
    (hf : findByTenantIDAndGeneration db t g = some r) :
    r ∈ db ∧ r.tenantID = t ∧ r.generation = g := by
  unfold findByTenantIDAndGeneration at hf
  have hp := List.find?_some hf
  simp only [Bool.and_eq_true, beq_iff_eq] at hp
  exact ⟨List.mem_of_find?_eq_some hf, hp.1, hp.2⟩

theorem find_updateStatus (db : DB) (t : String) (g : Nat) (id : String)
    (st : KeyStatus) (now : Nat) :
    findByTenantIDAndGeneration (updateStatus db id st now) t g
      = (findByTenantIDAndGeneration db t g).map
          (fun k => if k.id == id then { k with status := st, updatedAt := now }
                    else k) := by
  unfold findByTenantIDAndGeneration updateStatus
  rw [List.find?_map]
  have hpf : ((fun k : EncryptionKey => k.tenantID == t && k.generation == g) ∘
      fun k => if k.id == id then { k with status := st, updatedAt := now } else k)
      = fun k => k.tenantID == t && k.generation == g := by
    funext k
    by_cases h : (k.id == id) = true
    · simp [Function.comp, h]
    · simp [Function.comp, h]
  rw [hpf]

/-- C5: `DisableKey` is not idempotent.  For a record `(T, g)` with status
active, the first call answers 202 with an empty error body and flips the
record to disabled; a second call on the updated table answers 409
`KEY_ALREADY_DISABLED` and leaves the table unchanged. -/
theorem disableKey_not_idempotent (db : DB) (t gs : String) (g : Nat)
    (now now' : Nat) (r : EncryptionKey)
    (hvt : validateTenantID t = .ok ()) (hvg : validateGeneration gs = .ok g)
    (hr : findByTenantIDAndGeneration db t g = some r)
    (hact : r.status = KeyStatus.active) :
    disableKeyHandler db t gs now
      = (⟨202, none⟩, [⟨"DISABLE_KEY", t, g, "SUCCESS"⟩],
         updateStatus db r.id KeyStatus.disabled now) ∧
    findByTenantIDAndGeneration (updateStatus db r.id KeyStatus.disabled now) t g
      = some { r with status := KeyStatus.disabled, updatedAt := now } ∧
    disableKeyHandler (updateStatus db r.id KeyStatus.disabled now) t gs now'
      = (⟨409, some "KEY_ALREADY_DISABLED"⟩, [⟨"DISABLE_KEY", t, g, "FAILED"⟩],
         updateStatus db r.id KeyStatus.disabled now) := by
  have hsvc1 : disableKey db t g now
      = .ok (updateStatus db r.id KeyStatus.disabled now) := by
    unfold disableKey
    rw [hr]
    dsimp only
    rw [if_neg (by simp [hact])]
  have hfind2 : findByTenantIDAndGeneration
      (updateStatus db r.id KeyStatus.disabled now) t g
      = some { r with status := KeyStatus.disabled, updatedAt := now } := by
    rw [find_updateStatus, hr]
    simp
  have hsvc2 : disableKey (updateStatus db r.id KeyStatus.disabled now) t g now'
      = .error .keyAlreadyDisabled := by
    unfold disableKey
    rw [hfind2]
    simp
  refine ⟨?_, hfind2, ?_⟩
  · unfold disableKeyHandler
    rw [hvt, hvg]
    dsimp only
    rw [hsvc1]
  · unfold disableKeyHandler
    rw [hvt, hvg]
    dsimp only
    rw [hsvc2]
    rfl

/-- A table with a single active record, generation 1. -/
def dbEx5 : DB := [⟨"a", "t", 1, [1], KeyStatus.active, 0, 0⟩]

/-- Witness for C5: disabling generation 1 of `dbEx5` answers 202 once and
409 `KEY_ALREADY_DISABLED` on the repeat. -/
theorem disableKey_not_idempotent_witness :
    disableKeyHandler dbEx5 "t" "1" 5
      = (⟨202, none⟩, [⟨"DISABLE_KEY", "t", 1, "SUCCESS"⟩],
         updateStatus dbEx5 "a" KeyStatus.disabled 5) ∧
    findByTenantIDAndGeneration (updateStatus dbEx5 "a" KeyStatus.disabled 5) "t" 1
      = some ⟨"a", "t", 1, [1], KeyStatus.disabled, 0, 5⟩ ∧
    disableKeyHandler (updateStatus dbEx5 "a" KeyStatus.disabled 5) "t" "1" 6
      = (⟨409, some "KEY_ALREADY_DISABLED"⟩, [⟨"DISABLE_KEY", "t", 1, "FAILED"⟩],
         updateStatus dbEx5 "a" KeyStatus.disabled 5) :=
  disableKey_not_idempotent dbEx5 "t" "1" 1 5 6
    ⟨"a", "t", 1, [1], KeyStatus.active, 0, 0⟩ rfl rfl rfl rfl

/-- C6: a successful `DisableKey(T, g)` leaves every other `(tenant,
generation)` lookup — and hence `GetKeyByGeneration` on it — unchanged. -/
theorem disableKey_frame (db : DB) (t : String) (g : Nat) (now : Nat) (db' : DB)
    (t' : String) (g' : Nat) (decrypt : List Nat → Option (List Nat))
    (hwf : WFdb db) (hok : disableKey db t g now = .ok db')
    (hne : ¬(t' = t ∧ g' = g)) :
    findByTenantIDAndGeneration db' t' g' = findByTenantIDAndGeneration db t' g' ∧
    getKeyByGeneration db' t' g' decrypt = getKeyByGeneration db t' g' decrypt := by
  unfold WFdb at hwf
  unfold disableKey at hok
  cases hf : findByTenantIDAndGeneration db t g with
  | none =>
    rw [hf] at hok
    exact Except.noConfusion hok
  | some r =>
    rw [hf] at hok
    dsimp only at hok
    by_cases hst : (r.status == KeyStatus.disabled) = true
    · rw [if_pos hst] at hok
      exact Except.noConfusion hok
    · rw [if_neg hst] at hok
      simp only [Except.ok.injEq] at hok
      subst hok
      obtain ⟨hmem, hpt, hpg⟩ := find_some_props db t g r hf
      have hfind : findByTenantIDAndGeneration
          (updateStatus db r.id KeyStatus.disabled now) t' g'
          = findByTenantIDAndGeneration db t' g' := by
        rw [find_updateStatus]
        cases hf' : findByTenantIDAndGeneration db t' g' with
        | none => rfl
        | some r' =>
          obtain ⟨hmem', hpt', hpg'⟩ := find_some_props db t' g' r' hf'
          have hner : r' ≠ r := by
            intro he
            have h1 : t' = t := by rw [← hpt', he, hpt]
            have h2 : g' = g := by rw [← hpg', he, hpg]
            exact hne ⟨h1, h2⟩
          have hid : r'.id ≠ r.id :=
            ((List.Pairwise.forall WFrel_symm hwf) hmem' hmem hner).1
          have hbeq : (r'.id == r.id) = false := beq_eq_false_iff_ne.mpr hid
          simp only [Option.map_some']
          rw [if_neg (by simp [hbeq])]
      refine ⟨hfind, ?_⟩
      unfold getKeyByGeneration
      rw [hfind]

/-- A well-formed table with active generations 1 and 2 of one tenant. -/
def dbEx6 : DB :=
  [⟨"a", "t", 1, [1], KeyStatus.active, 0, 0⟩,
   ⟨"b", "t", 2, [2], KeyStatus.active, 0, 0⟩]

/-- Witness for C6: disabling generation 2 of `dbEx6` leaves the lookup of
generation 1 untouched. -/
theorem disableKey_frame_witness :
    findByTenantIDAndGeneration (updateStatus dbEx6 "b" KeyStatus.disabled 5) "t" 1
      = findByTenantIDAndGeneration dbEx6 "t" 1 ∧
    getKeyByGeneration (updateStatus dbEx6 "b" KeyStatus.disabled 5) "t" 1
        (fun x => some x)
      = getKeyByGeneration dbEx6 "t" 1 (fun x => some x) :=
  disableKey_frame dbEx6 "t" 2 5 (updateStatus dbEx6 "b" KeyStatus.disabled 5)
    "t" 1 (fun x => some x) (by unfold WFdb dbEx6; simp) rfl (by simp)

/-! ## C10 — the existence check counts records of any status -/

/-- C10: `ExistsByTenantID` filters on `tenant_id` only, so `CreateKey`
refuses any tenant that has at least one record — whatever the statuses of
its generations; a fully-disabled tenant can never be re-bootstrapped
through `CreateKey`. -/
theorem createKey_blocked_by_any_record (db : DB) (t : String)
    (plainKey : List Nat) (encrypt : List Nat → Option (List Nat))
    (newId : String) (now : Nat) (r : EncryptionKey)
    (hr : r ∈ db) (ht : r.tenantID = t) :
    createKey db t plainKey encrypt newId now = .error .keyAlreadyExists := by
  have hex : existsByTenantID db t = true := by
    unfold existsByTenantID
    rw [List.any_eq_true]
    exact ⟨r, hr, by simp [ht]⟩
  unfold createKey createKeyAt
  rw [if_pos hex]

/-- Witness for C10: a tenant whose single record is disabled still gets
`KeyAlreadyExists` from `CreateKey`. -/
theorem createKey_blocked_by_any_record_witness :
    createKey [⟨"a", "t", 1, [1], KeyStatus.disabled, 0, 0⟩] "t" [0]
        (fun x => some x) "b" 5 = .error .keyAlreadyExists :=
  createKey_blocked_by_any_record _ "t" [0] (fun x => some x) "b" 5
    ⟨"a", "t", 1, [1], KeyStatus.disabled, 0, 0⟩ (List.mem_singleton.mpr rfl) rfl

/-! ## C2 — the concurrent-create conflict is not mapped to `KeyAlreadyExists` -/

/-- The row committed by the winner of a concurrent `CreateKey` race. -/
def raceRow : EncryptionKey := ⟨"k0", "tenant-001", 1, [7], KeyStatus.active, 0, 0⟩

/-- Counterexample to C2: when the existence check sees the table before the
concurrent winner's commit and the insert sees it after, the service returns
the wrapped unique-constraint conflict, `errors.Is` does not identify it as
`KeyAlreadyExists`, and the facade answers 500 `INTERNAL_ERROR` — not the
claimed 409 `KEY_ALREADY_EXISTS`. -/
theorem createKey_race_counterexample :
    createKeyAt [] [raceRow] "tenant-001" [0] (fun x => some x) "k1" 1
      = .error (.wrap .dbConflict) ∧
    errorIs (.wrap .dbConflict) .keyAlreadyExists = false ∧
    (createKeyHandlerAt [] [raceRow] "tenant-001" [0] (fun x => some x) "k1" 1).1
      = (⟨500, some "INTERNAL_ERROR"⟩ : HttpResponse) :=
  ⟨rfl, rfl, rfl⟩

/-- C2 amended: when `CreateKey` passes the existence check but the insert
fails with the unique-constraint conflict, the service surfaces the conflict
wrapped in `fmt.Errorf` without mapping it to `KeyAlreadyExists`, so the HTTP
facade answers 500 `INTERNAL_ERROR`, never 409. -/
theorem createKey_race_conflict_is_500 (dbCheck dbInsert : DB) (t : String)
    (plainKey : List Nat) (encrypt : List Nat → Option (List Nat))
    (newId : String) (now : Nat) (enc : List Nat)
    (hex : existsByTenantID dbCheck t = false)
    (henc : encrypt plainKey = some enc)
    (hconf : repoCreate dbInsert ⟨newId, t, 1, enc, KeyStatus.active, now, now⟩
      = .error .dbConflict)
    (hvt : validateTenantID t = .ok ()) :
    createKeyAt dbCheck dbInsert t plainKey encrypt newId now
      = .error (.wrap .dbConflict) ∧
    errorIs (.wrap .dbConflict) .keyAlreadyExists = false ∧
    (createKeyHandlerAt dbCheck dbInsert t plainKey encrypt newId now).1
      = (⟨500, some "INTERNAL_ERROR"⟩ : HttpResponse) := by
  have hsvc : createKeyAt dbCheck dbInsert t plainKey encrypt newId now
      = .error (.wrap .dbConflict) := by
    unfold createKeyAt
    rw [if_neg (by simp [hex]), henc]
    dsimp only
    rw [hconf]
  refine ⟨hsvc, rfl, ?_⟩
  unfold createKeyHandlerAt
  rw [hvt]
  dsimp only
  rw [hsvc]
  rfl

/-- Witness for the amended C2, at the race instance itself. -/
theorem createKey_race_conflict_is_500_witness :
    createKeyAt [] [raceRow] "tenant-001" [9] (fun x => some x) "k1" 1
      = .error (.wrap .dbConflict) ∧
    errorIs (.wrap .dbConflict) .keyAlreadyExists = false ∧
    (createKeyHandlerAt [] [raceRow] "tenant-001" [9] (fun x => some x) "k1" 1).1
      = (⟨500, some "INTERNAL_ERROR"⟩ : HttpResponse) :=
  createKey_race_conflict_is_500 [] [raceRow] "tenant-001" [9] (fun x => some x)
    "k1" 1 [9] rfl rfl rfl rfl

/-! ## C9 — generation-parameter validation -/

theorem validateGeneration_shape (s : String) :
    (∃ g, validateGeneration s = .ok g) ∨
    validateGeneration s = .error .invalidGeneration := by
  unfold validateGeneration
  cases hgp : goParseUint32 s with
  | none => exact Or.inr rfl
  | some g =>
    dsimp only
    by_cases h : g < 1
    · rw [if_pos h]
      exact Or.inr rfl
    · rw [if_neg h]
      exact Or.inl ⟨g, rfl⟩

/-- Counterexample to C9: `"4294967296"` (= 2^32) is a decimal unsigned
integer ≥ 1, yet `validateGeneration` rejects it — `ParseUint(s, 10, 32)`
overflows the 32-bit limit — so the route answers 400 `INVALID_GENERATION`
instead of reaching `KeyService`. -/
theorem validateGeneration_counterexample :
    ("4294967296".toList.all (fun c => c.isDigit)) = true ∧
    "4294967296".toList.foldl (fun acc c => acc * 10 + (c.toNat - 48)) 0
      = 4294967296 ∧
    1 ≤ 4294967296 ∧
    validateGeneration "4294967296" = .error .invalidGeneration ∧
    (getKeyByGenerationHandler [] "t" "4294967296" (fun x => some x)).1
      = (⟨400, some "INVALID_GENERATION"⟩ : HttpResponse) :=
  ⟨rfl, rfl, by norm_num, rfl, rfl⟩

/-- C9 amended: the generation path parameter passes validation iff it is a
non-empty decimal digit string whose value `g` satisfies `1 ≤ g < 2^32`
(`ParseUint(s, 10, 32)` imposes the 32-bit bound); on the generation routes
(with a valid tenant) the answer is 400 `INVALID_GENERATION` exactly when
validation fails. -/
theorem validateGeneration_spec (s : String) (db : DB) (t : String)
    (decrypt : List Nat → Option (List Nat)) (now : Nat)
    (hvt : validateTenantID t = .ok ()) :
    (∀ g, validateGeneration s = .ok g ↔
      (s.isEmpty = false ∧ s.toList.all (fun c => c.isDigit) = true ∧
        s.toList.foldl (fun acc c => acc * 10 + (c.toNat - 48)) 0 = g ∧
        1 ≤ g ∧ g < 4294967296)) ∧
    ((getKeyByGenerationHandler db t s decrypt).1
        = (⟨400, some "INVALID_GENERATION"⟩ : HttpResponse) ↔
      validateGeneration s = .error .invalidGeneration) ∧
    ((disableKeyHandler db t s now).1
        = (⟨400, some "INVALID_GENERATION"⟩ : HttpResponse) ↔
      validateGeneration s = .error .invalidGeneration) := by
  refine ⟨?_, ?_, ?_⟩
  · intro g
    unfold validateGeneration goParseUint32
    by_cases he : s.isEmpty = true
    · rw [if_pos he]
      dsimp only
      constructor
      · intro hcon
        exact Except.noConfusion hcon
      · rintro ⟨hef, -⟩
        rw [he] at hef
        exact Bool.noConfusion hef
    · have hef : s.isEmpty = false := by simpa using he
      rw [if_neg he]
      by_cases hd : (s.toList.all (fun c => c.isDigit)) = true
      · rw [if_pos hd]
        by_cases hlt : s.toList.foldl (fun acc c => acc * 10 + (c.toNat - 48)) 0
            < 4294967296
        · rw [if_pos hlt]
          dsimp only
          by_cases h1 : s.toList.foldl (fun acc c => acc * 10 + (c.toNat - 48)) 0 < 1
          · rw [if_pos h1]
            constructor
            · intro hcon
              exact Except.noConfusion hcon
            · rintro ⟨-, -, hfold, hge, -⟩
              omega
          · rw [if_neg h1]
            constructor
            · intro hok
              injection hok with hok
              exact ⟨hef, hd, hok, by omega, hok ▸ hlt⟩
            · rintro ⟨-, -, hfold, -, -⟩
              rw [hfold]
        · rw [if_neg hlt]
          dsimp only
          constructor
          · intro hcon
            exact Except.noConfusion hcon
          · rintro ⟨-, -, hfold, -, hbig⟩
            exact (hlt (by omega)).elim
      · rw [if_neg hd]
        dsimp only
        constructor
        · intro hcon
          exact Except.noConfusion hcon
        · rintro ⟨-, hd', -⟩
          exact (hd hd').elim
  · cases validateGeneration_shape s with
    | inr herr =>
      constructor
      · intro _
        exact herr
      · intro _
        unfold getKeyByGenerationHandler
        rw [hvt, herr]
    | inl hok =>
      obtain ⟨g, hg⟩ := hok
      constructor
      · intro hcon
        exfalso
        unfold getKeyByGenerationHandler at hcon
        rw [hvt, hg] at hcon
        dsimp only at hcon
        cases hsvc : getKeyByGeneration db t g decrypt with
        | error e =>
          rw [hsvc] at hcon
          dsimp only at hcon
          by_cases h1 : errorIs e GoError.keyNotFound = true
          · rw [if_pos h1] at hcon
            simp at hcon
          · rw [if_neg h1] at hcon
            by_cases h2 : errorIs e GoError.keyDisabled = true
            · rw [if_pos h2] at hcon
              simp at hcon
            · rw [if_neg h2] at hcon
              simp at hcon
        | ok k =>
          rw [hsvc] at hcon
          simp at hcon
      · intro hcon
        rw [hg] at hcon
        exact Except.noConfusion hcon
  · cases validateGeneration_shape s with
    | inr herr =>
      constructor
      · intro _
        exact herr
      · intro _
        unfold disableKeyHandler
        rw [hvt, herr]
    | inl hok =>
      obtain ⟨g, hg⟩ := hok
      constructor
      · intro hcon
        exfalso
        unfold disableKeyHandler at hcon
        rw [hvt, hg] at hcon
        dsimp only at hcon
        cases hsvc : disableKey db t g now with
        | error e =>
          rw [hsvc] at hcon
          dsimp only at hcon
          by_cases h1 : errorIs e GoError.keyNotFound = true
          · rw [if_pos h1] at hcon
            simp at hcon
          · rw [if_neg h1] at hcon
            by_cases h2 : errorIs e GoError.keyAlreadyDisabled = true
            · rw [if_pos h2] at hcon
              simp at hcon
            · rw [if_neg h2] at hcon
              simp at hcon
        | ok db2 =>
          rw [hsvc] at hcon
          simp at hcon
      · intro hcon
        rw [hg] at hcon
        exact Except.noConfusion hcon

/-- Witness for the amended C9 at the digit string `"3"`. -/
theorem validateGeneration_spec_witness :
    (validateGeneration "3" = .ok 3 ↔
      ("3".isEmpty = false ∧ "3".toList.all (fun c => c.isDigit) = true ∧
        "3".toList.foldl (fun acc c => acc * 10 + (c.toNat - 48)) 0 = 3 ∧
        1 ≤ 3 ∧ 3 < 4294967296)) ∧
    ((getKeyByGenerationHandler [] "t" "3" (fun x => some x)).1
        = (⟨400, some "INVALID_GENERATION"⟩ : HttpResponse) ↔
      validateGeneration "3" = .error .invalidGeneration) :=
  ⟨(validateGeneration_spec "3" [] "t" (fun x => some x) 0 rfl).1 3,
   (validateGeneration_spec "3" [] "t" (fun x => some x) 0 rfl).2.1⟩

/-! ## C7 — audit events -/

theorem validateTenantID_shape (s : String) :
    validateTenantID s = .ok () ∨ validateTenantID s = .error .invalidTenantID := by
  unfold validateTenantID
  by_cases h1 : s.isEmpty = true
  · rw [if_pos h1]
    exact Or.inr rfl
  · rw [if_neg h1]
    by_cases h2 : s.utf8ByteSize > 64
    · rw [if_pos h2]
      exact Or.inr rfl
    · rw [if_neg h2]
      by_cases h3 : (s.toList.all isTenantChar) = true
      · rw [if_pos h3]
        exact Or.inl rfl
      · rw [if_neg h3]
        exact Or.inr rfl

/-- "This request wrote exactly one audit event": the event list is a
singleton carrying the route's operation name and the tenant id, whose
result field is `SUCCESS` exactly when the response carries the route's
success status (and `FAILED` otherwise). -/
def emitsOneEvent (out : HttpResponse × List AuditEvent) (op t : String)
    (success : Nat) : Prop :=
  ∃ e, out.2 = [e] ∧ e.operation = op ∧ e.tenantID = t ∧
    (e.result = "SUCCESS" ∨ e.result = "FAILED") ∧
    (e.result = "SUCCESS" ↔ out.1.status = success)

theorem emitsOne_failed (resp : HttpResponse) (op t : String) (g : Nat)
    (success : Nat) (hne : resp.status ≠ success) :
    emitsOneEvent (resp, [⟨op, t, g, "FAILED"⟩]) op t success :=
  ⟨⟨op, t, g, "FAILED"⟩, rfl, rfl, rfl, Or.inr rfl,
    ⟨fun h => absurd h (by simp), fun h => absurd h hne⟩⟩

theorem emitsOne_success (resp : HttpResponse) (op t : String) (g : Nat)
    (success : Nat) (heq : resp.status = success) :
    emitsOneEvent (resp, [⟨op, t, g, "SUCCESS"⟩]) op t success :=
  ⟨⟨op, t, g, "SUCCESS"⟩, rfl, rfl, rfl, Or.inl rfl,
    ⟨fun _ => heq, fun _ => rfl⟩⟩

/-- Counterexample to C7: a request rejected by tenant-id validation is
answered 400 with **no** audit event, contradicting "this holds for every
request, including ones rejected before reaching KeyService". -/
theorem audit_validation_reject_counterexample :
    (createKeyHandler [] "bad tenant!" [0] (fun x => some x) "k1" 0).1
      = (⟨400, some "INVALID_TENANT_ID"⟩ : HttpResponse) ∧
    (createKeyHandler [] "bad tenant!" [0] (fun x => some x) "k1" 0).2.1 = [] :=
  ⟨rfl, rfl⟩

/-- C7 amended: every request that passes path-parameter validation emits
exactly one audit event — operation, tenant id, and result `SUCCESS` exactly
on the success status, `FAILED` on any domain or infrastructure error — while
a request rejected by validation is answered 400 with no audit event. -/
theorem audit_one_event_per_validated_request (db : DB) (t gs : String)
    (plainKey : List Nat) (encrypt decrypt : List Nat → Option (List Nat))
    (newId : String) (now : Nat) :
    (validateTenantID t = .ok () →
      emitsOneEvent ((createKeyHandler db t plainKey encrypt newId now).1,
        (createKeyHandler db t plainKey encrypt newId now).2.1)
        "CREATE_KEY" t 201) ∧
    (validateTenantID t = .error .invalidTenantID →
      (createKeyHandler db t plainKey encrypt newId now).2.1 = [] ∧
      (createKeyHandler db t plainKey encrypt newId now).1.status = 400) ∧
    (validateTenantID t = .ok () →
      emitsOneEvent (getCurrentKeyHandler db t decrypt) "GET_CURRENT_KEY" t 200) ∧
    (validateTenantID t = .error .invalidTenantID →
      (getCurrentKeyHandler db t decrypt).2 = [] ∧
      (getCurrentKeyHandler db t decrypt).1.status = 400) ∧
    (validateTenantID t = .ok () → ∀ g, validateGeneration gs = .ok g →
      emitsOneEvent (getKeyByGenerationHandler db t gs decrypt)
        "GET_KEY_BY_GENERATION" t 200) ∧
    (validateTenantID t = .error .invalidTenantID →
      (getKeyByGenerationHandler db t gs decrypt).2 = [] ∧
      (getKeyByGenerationHandler db t gs decrypt).1.status = 400) ∧
    (validateTenantID t = .ok () →
      validateGeneration gs = .error .invalidGeneration →
      (getKeyByGenerationHandler db t gs decrypt).2 = [] ∧
      (getKeyByGenerationHandler db t gs decrypt).1.status = 400) ∧
    (validateTenantID t = .ok () →
      emitsOneEvent ((rotateKeyHandler db t plainKey encrypt newId now).1,
        (rotateKeyHandler db t plainKey encrypt newId now).2.1)
        "ROTATE_KEY" t 201) ∧
    (validateTenantID t = .error .invalidTenantID →
      (rotateKeyHandler db t plainKey encrypt newId now).2.1 = [] ∧
      (rotateKeyHandler db t plainKey encrypt newId now).1.status = 400) ∧
    (validateTenantID t = .ok () →
      emitsOneEvent (listKeysHandler db t) "LIST_KEYS" t 200) ∧
    (validateTenantID t = .error .invalidTenantID →
      (listKeysHandler db t).2 = [] ∧ (listKeysHandler db t).1.status = 400) ∧
    (validateTenantID t = .ok () → ∀ g, validateGeneration gs = .ok g →
      emitsOneEvent ((disableKeyHandler db t gs now).1,
        (disableKeyHandler db t gs now).2.1) "DISABLE_KEY" t 202) ∧
    (validateTenantID t = .error .invalidTenantID →
      (disableKeyHandler db t gs now).2.1 = [] ∧
      (disableKeyHandler db t gs now).1.status = 400) ∧
    (validateTenantID t = .ok () →
      validateGeneration gs = .error .invalidGeneration →
      (disableKeyHandler db t gs now).2.1 = [] ∧
      (disableKeyHandler db t gs now).1.status = 400) := by
  refine ⟨?_, ?_, ?_, ?_, ?_, ?_, ?_, ?_, ?_, ?_, ?_, ?_, ?_, ?_⟩
  · intro hvt
    unfold createKeyHandler createKeyHandlerAt
    rw [hvt]
    dsimp only
    cases hsvc : createKeyAt db db t plainKey encrypt newId now with
    | error e =>
      dsimp only
      by_cases h1 : errorIs e GoError.keyAlreadyExists = true
      · rw [if_pos h1]
        exact emitsOne_failed _ _ _ _ _ (by simp)
      · rw [if_neg h1]
        exact emitsOne_failed _ _ _ _ _ (by simp)
    | ok p =>
      exact emitsOne_success _ _ _ _ _ rfl
  · intro hvt
    unfold createKeyHandler createKeyHandlerAt
    rw [hvt]
    exact ⟨rfl, rfl⟩
  · intro hvt
    unfold getCurrentKeyHandler
    rw [hvt]
    dsimp only
    cases hsvc : getCurrentKey db t decrypt with
    | error e =>
      dsimp only
      by_cases h1 : errorIs e GoError.keyNotFound = true
      · rw [if_pos h1]
        exact emitsOne_failed _ _ _ _ _ (by simp)
      · rw [if_neg h1]
        exact emitsOne_failed _ _ _ _ _ (by simp)
    | ok k =>
      exact emitsOne_success _ _ _ _ _ rfl
  · intro hvt
    unfold getCurrentKeyHandler
    rw [hvt]
    exact ⟨rfl, rfl⟩
  · intro hvt g hvg
    unfold getKeyByGenerationHandler
    rw [hvt, hvg]
    dsimp only
    cases hsvc : getKeyByGeneration db t g decrypt with
    | error e =>
      dsimp only
      by_cases h1 : errorIs e GoError.keyNotFound = true
      · rw [if_pos h1]
        exact emitsOne_failed _ _ _ _ _ (by simp)
      · rw [if_neg h1]
        by_cases h2 : errorIs e GoError.keyDisabled = true
        · rw [if_pos h2]
          exact emitsOne_failed _ _ _ _ _ (by simp)
        · rw [if_neg h2]
          exact emitsOne_failed _ _ _ _ _ (by simp)
    | ok k =>
      exact emitsOne_success _ _ _ _ _ rfl
  · intro hvt
    unfold getKeyByGenerationHandler
    rw [hvt]
    exact ⟨rfl, rfl⟩
  · intro hvt hvg
    unfold getKeyByGenerationHandler
    rw [hvt, hvg]
    exact ⟨rfl, rfl⟩
  · intro hvt
    unfold rotateKeyHandler
    rw [hvt]
    dsimp only
    cases hsvc : rotateKey db t plainKey encrypt newId now with
    | error e =>
      dsimp only
      by_cases h1 : errorIs e GoError.keyNotFound = true
      · rw [if_pos h1]
        exact emitsOne_failed _ _ _ _ _ (by simp)
      · rw [if_neg h1]
        exact emitsOne_failed _ _ _ _ _ (by simp)
    | ok p =>
      exact emitsOne_success _ _ _ _ _ rfl
  · intro hvt
    unfold rotateKeyHandler
    rw [hvt]
    exact ⟨rfl, rfl⟩
  · intro hvt
    unfold listKeysHandler
    rw [hvt]
    exact emitsOne_success _ _ _ _ _ rfl
  · intro hvt
    unfold listKeysHandler
    rw [hvt]
    exact ⟨rfl, rfl⟩
  · intro hvt g hvg
    unfold disableKeyHandler
    rw [hvt, hvg]
    dsimp only
    cases hsvc : disableKey db t g now with
    | error e =>
      dsimp only
      by_cases h1 : errorIs e GoError.keyNotFound = true
      · rw [if_pos h1]
        exact emitsOne_failed _ _ _ _ _ (by simp)
      · rw [if_neg h1]
        by_cases h2 : errorIs e GoError.keyAlreadyDisabled = true
        · rw [if_pos h2]
          exact emitsOne_failed _ _ _ _ _ (by simp)
        · rw [if_neg h2]
          exact emitsOne_failed _ _ _ _ _ (by simp)
    | ok db2 =>
      exact emitsOne_success _ _ _ _ _ rfl
  · intro hvt
    unfold disableKeyHandler
    rw [hvt]
    exact ⟨rfl, rfl⟩
  · intro hvt hvg
    unfold disableKeyHandler
    rw [hvt, hvg]
    exact ⟨rfl, rfl⟩

/-- Witness for the amended C7: a validated create request on the empty table
emits exactly one audit event, and a validation-rejected one emits none. -/
theorem audit_one_event_witness :
    emitsOneEvent ((createKeyHandler [] "tenant-001" [0] (fun x => some x)
        "k1" 0).1,
      (createKeyHandler [] "tenant-001" [0] (fun x => some x) "k1" 0).2.1)
      "CREATE_KEY" "tenant-001" 201 ∧
    (createKeyHandler [] "bad!" [0] (fun x => some x) "k1" 0).2.1 = [] :=
  ⟨(audit_one_event_per_validated_request [] "tenant-001" "1" [0]
      (fun x => some x) (fun x => some x) "k1" 0).1 rfl,
   ((audit_one_event_per_validated_request [] "bad!" "1" [0]
      (fun x => some x) (fun x => some x) "k1" 0).2.1 rfl).1⟩

/-! ## C8 — migration runs are idempotent -/

theorem applyMigration_ok (execOk : String → Bool) (st st' : MigState)
    (m : Migration) (h : applyMigration execOk st m = .ok st') :
    st'.applied = st.applied ++ [m.version] := by
  unfold applyMigration at h
  by_cases h1 : (!execOk m.filePath) = true
  · rw [if_pos h1] at h
    exact Except.noConfusion h
  · rw [if_neg h1] at h
    by_cases h2 : isMigrationApplied st m.version = true
    · rw [if_pos h2] at h
      exact Except.noConfusion h
    · rw [if_neg h2] at h
      simp only [Except.ok.injEq] at h
      rw [← h]

theorem applyLoop_ok (execOk : String → Bool) :
    ∀ (ms : List Migration) (st st' : MigState) (n n' : Nat),
      applyLoop execOk st n ms = (st', n', none) →
      st'.applied = st.applied ++ ms.map Migration.version := by
  intro ms
  induction ms with
  | nil =>
    intro st st' n n' h
    unfold applyLoop at h
    simp only [Prod.mk.injEq] at h
    rw [← h.1]
    simp
  | cons m rest ih =>
    intro st st' n n' h
    unfold applyLoop at h
    cases ha : applyMigration execOk st m with
    | error e =>
      rw [ha] at h
      dsimp only at h
      simp at h
    | ok st1 =>
      rw [ha] at h
      dsimp only at h
      have h2 := ih st1 st' (n + 1) n' h
      rw [h2, applyMigration_ok execOk st st1 m ha]
      simp

/-- C8: if `ApplyMigrations` completes successfully over a directory whose
scan yields `ms`, and the prior history only holds on-disk versions, then the
resulting history contains exactly the on-disk versions and an immediately
repeated run filters every discovered version out as already applied and
applies zero migrations, leaving the history unchanged. -/
theorem applyMigrations_idempotent (execOk : String → Bool) (files : List MigFile)
    (st0 st1 : MigState) (n : Nat) (ms : List Migration)
    (hscan : scanMigrationFiles files = .ok ms)
    (hrun : applyMigrations execOk files st0 = (st1, n, none))
    (hsub : ∀ v ∈ st0.applied, v ∈ ms.map Migration.version) :
    applyMigrations execOk files st1 = (st1, 0, none) ∧
    ∀ v, v ∈ st1.applied ↔ v ∈ ms.map Migration.version := by
  unfold applyMigrations at hrun ⊢
  rw [hscan] at hrun ⊢
  dsimp only at hrun ⊢
  by_cases hp : (ms.filter (fun m => !isMigrationApplied st0 m.version)).isEmpty
      = true
  · rw [if_pos hp] at hrun
    simp only [Prod.mk.injEq] at hrun
    obtain ⟨hst, -⟩ := hrun
    subst hst
    have hallap : ∀ m ∈ ms, isMigrationApplied st0 m.version = true := by
      intro m hm
      have hnil := List.isEmpty_iff.mp hp
      rw [List.filter_eq_nil_iff] at hnil
      have h2 := hnil m hm
      simpa using h2
    have hiff : ∀ v, v ∈ st0.applied ↔ v ∈ ms.map Migration.version := by
      intro v
      constructor
      · exact hsub v
      · intro hv
        obtain ⟨m, hm, hveq⟩ := List.mem_map.mp hv
        have hap := hallap m hm
        unfold isMigrationApplied at hap
        rw [show st0.applied.contains m.version = st0.applied.elem m.version
          from rfl, List.elem_iff] at hap
        exact hveq ▸ hap
    refine ⟨?_, hiff⟩
    rw [if_pos hp]
  · rw [if_neg hp] at hrun
    have happ := applyLoop_ok execOk
      (ms.filter (fun m => !isMigrationApplied st0 m.version)) st0 st1 0 n hrun
    have hsup : ∀ m ∈ ms, m.version ∈ st1.applied := by
      intro m hm
      by_cases hap : isMigrationApplied st0 m.version = true
      · have hv : m.version ∈ st0.applied := by
          unfold isMigrationApplied at hap
          rw [show st0.applied.contains m.version = st0.applied.elem m.version
            from rfl, List.elem_iff] at hap
          exact hap
        rw [happ]
        exact List.mem_append.mpr (Or.inl hv)
      · have hpend : m ∈ ms.filter (fun m => !isMigrationApplied st0 m.version) :=
          List.mem_filter.mpr ⟨hm, by simp [hap]⟩
        rw [happ]
        exact List.mem_append.mpr (Or.inr (List.mem_map.mpr ⟨m, hpend, rfl⟩))
    have hiff : ∀ v, v ∈ st1.applied ↔ v ∈ ms.map Migration.version := by
      intro v
      constructor
      · intro hv
        rw [happ] at hv
        cases List.mem_append.mp hv with
        | inl h => exact hsub v h
        | inr h =>
          obtain ⟨m, hmf, hveq⟩ := List.mem_map.mp h
          have hm : m ∈ ms := (List.mem_filter.mp hmf).1
          exact hveq ▸ List.mem_map.mpr ⟨m, hm, rfl⟩
      · intro hv
        obtain ⟨m, hm, hveq⟩ := List.mem_map.mp hv
        exact hveq ▸ hsup m hm
    refine ⟨?_, hiff⟩
    have hp2 : (ms.filter (fun m => !isMigrationApplied st1 m.version)).isEmpty
        = true := by
      rw [List.isEmpty_iff, List.filter_eq_nil_iff]
      intro m hm
      have hap : isMigrationApplied st1 m.version = true := by
        unfold isMigrationApplied
        rw [show st1.applied.contains m.version = st1.applied.elem m.version
          from rfl, List.elem_iff]
        exact hsup m hm
      simp [hap]
    rw [if_pos hp2]

/-- The migrations directory of spec scenario 7. -/
def filesEx : List MigFile :=
  [⟨"001_init.sql", "m/001_init.sql", false⟩,
   ⟨"002_add_index.sql", "m/002_add_index.sql", false⟩]

/-- The scan of `filesEx`. -/
def msEx : List Migration :=
  [⟨"001", "init", "m/001_init.sql"⟩, ⟨"002", "add_index", "m/002_add_index.sql"⟩]

/-- Witness for C8: after a successful first run over `filesEx` from an empty
history, the repeat run applies zero migrations, and the recorded set matches
the on-disk versions. -/
theorem applyMigrations_idempotent_witness :
    applyMigrations (fun _ => true) filesEx ⟨["001", "002"]⟩
      = (⟨["001", "002"]⟩, 0, none) ∧
    ("002" ∈ (MigState.mk ["001", "002"]).applied ↔
      "002" ∈ msEx.map Migration.version) := by
  have h := applyMigrations_idempotent (fun _ => true) filesEx ⟨[]⟩
    ⟨["001", "002"]⟩ 2 msEx rfl rfl (by intro v hv; cases hv)
  exact ⟨h.1, h.2 "002"⟩

end KeyMgmt
